import Mathlib

/-!
Verification of the dynamic memory pool core of gozlib
(`src/zwrapper/dyn_mem_pool.h`).

The C code is shallowly embedded as follows.

* Machine integers (`uint32_t`) are modelled as `Nat` with explicit
  `% 4294967296` where overflow matters (`find_multipool_index_for_size`
  computes `size - 1` in `uint32_t`, which wraps for `size = 0`).
* The system allocator (`malloc`/`free`) is modelled by an explicit
  `AllocState`: a finite list of forced outcomes (`false` = the next
  `malloc` fails; an empty list means every `malloc` succeeds), a counter
  producing fresh distinct addresses, and a log of freed addresses.
* A `MemNode` (one Block) carries the address of its control structure,
  the address of its data buffer and the address of its owning pool.
  In the C code the data pointer carries a hidden prefix holding the
  owning node's address, so `pool_mem_return` can recover the node and
  pool from the bare data pointer (`get_memnode_in_data`); the model
  keeps node and data together in the `MemNode` value and passes the
  owning pool explicitly.
* The intrusive lock-free free list (`MemPool.head`, a Treiber stack
  linked through `MemNode.next`) is modelled as a `List MemNode`; the
  CAS loops of `pool_mem_acquire`/`pool_mem_return` always succeed on the
  first iteration in the single-threaded semantics modelled here, so
  acquire is "pop the head" and return is "push a new head".
* `__builtin_clz` on a nonzero 32-bit value is `32 - bitlen v`, where
  `bitlen` is the binary length of the value, computed with structural
  recursion on a fuel of 32 bits so the kernel can evaluate it.
-/

/-- One Block: the control structure (`struct MemNode`) together with the
address of the data buffer it owns.  `addr` is the address returned by
`malloc(sizeof(struct MemNode))`, `data` the address returned by the data
buffer's `malloc` (the C code hands out `ptr_data + 1`, a fixed offset into
that same allocation, and stores the node's address in the prefix; the model
identifies the data pointer with its allocation).  `poolAddr` models the
`node->pool` back-reference. -/
structure MemNode where
  addr : Nat
  data : Nat
  poolAddr : Nat
deriving DecidableEq, Repr

/-- Embedding of `struct MemPool`: the free-list head (modelled as the list of nodes
reachable through `next`) and the fixed block size `mem_size`.  `addr` is
the address of the pool's own control structure. -/
structure MemPool where
  addr : Nat
  head : List MemNode
  mem_size : Nat
deriving DecidableEq, Repr

/-- Model of the system allocator: `outcomes` forces the results of the
next `malloc` calls (`true` = success, `false` = failure; exhausted list
means success), `nextAddr` supplies fresh distinct addresses, and
`freedAddrs` logs every address passed to `free`. -/
structure AllocState where
  outcomes : List Bool
  nextAddr : Nat
  freedAddrs : List Nat
deriving DecidableEq, Repr

/-- Model of `malloc`: consumes one forced outcome; on success returns a fresh
address. -/
def malloc (s : AllocState) : Option Nat × AllocState :=
  match s.outcomes with
  | [] => (some s.nextAddr, { s with nextAddr := s.nextAddr + 1 })
  | ok :: rest =>
    if ok then
      (some s.nextAddr,
        { outcomes := rest, nextAddr := s.nextAddr + 1, freedAddrs := s.freedAddrs })
    else
      (none, { s with outcomes := rest })

/-- Model of `free(a)`: logs the freed address. -/
def free_addr (s : AllocState) (a : Nat) : AllocState :=
  { s with freedAddrs := a :: s.freedAddrs }

/-- Embedding of `alloc_poolable_mem` (dyn_mem_pool.h:86): `malloc` the node, then
`malloc` the data buffer; if the second `malloc` fails the node is freed
again and the whole call fails. -/
def alloc_poolable_mem (pool : MemPool) (s : AllocState) : Option MemNode × AllocState :=
  let m1 := malloc s
  match m1.1 with
  | none => (none, m1.2)
  | some nodeAddr =>
    let m2 := malloc m1.2
    match m2.1 with
    | none => (none, free_addr m2.2 nodeAddr)
    | some dataAddr =>
      (some { addr := nodeAddr, data := dataAddr, poolAddr := pool.addr }, m2.2)

/-- Embedding of `free_poolable_mem` (dyn_mem_pool.h:117): frees the data allocation and
then the node. -/
def free_poolable_mem (s : AllocState) (node : MemNode) : AllocState :=
  free_addr (free_addr s node.data) node.addr

/-- Embedding of `alloc_mem_pool` (dyn_mem_pool.h:138): `malloc` + `memset` zero, so the
new pool starts with a NULL head and the requested `mem_size`. -/
def alloc_mem_pool (size : Nat) (s : AllocState) : Option MemPool × AllocState :=
  let m := malloc s
  match m.1 with
  | none => (none, m.2)
  | some poolAddr => (some { addr := poolAddr, head := [], mem_size := size }, m.2)

/-- Helper for `pool_mem_free_all`: walk the free list freeing every node. -/
def free_nodes : List MemNode → AllocState → AllocState
  | [], s => s
  | n :: rest, s => free_nodes rest (free_poolable_mem s n)

/-- Embedding of `pool_mem_free_all` (dyn_mem_pool.h:155): frees every node on the free
list, leaving the head NULL. -/
def pool_mem_free_all (pool : MemPool) (s : AllocState) : MemPool × AllocState :=
  ({ pool with head := [] }, free_nodes pool.head s)

/-- Embedding of `free_mem_pool` (dyn_mem_pool.h:172): `pool_mem_free_all` then free the
pool's own control structure. -/
def free_mem_pool (pool : MemPool) (s : AllocState) : AllocState :=
  free_addr (pool_mem_free_all pool s).2 pool.addr

/-- Embedding of `pool_mem_try_alloc_data` (dyn_mem_pool.h:188): allocate a fresh node
and hand out its data pointer (the node is recoverable from the data
pointer through the hidden prefix, so the model returns the node). -/
def pool_mem_try_alloc_data (pool : MemPool) (s : AllocState) : Option MemNode × AllocState :=
  alloc_poolable_mem pool s

/-- Embedding of `pool_mem_acquire` (dyn_mem_pool.h:207): if the head is NULL, take the
cache-miss path (`pool_mem_try_alloc_data`) without touching the pool;
otherwise pop the head off the free list (the CAS succeeds at once in the
single-threaded semantics). -/
def pool_mem_acquire (pool : MemPool) (s : AllocState) :
    Option MemNode × MemPool × AllocState :=
  match pool.head with
  | [] =>
    let r := pool_mem_try_alloc_data pool s
    (r.1, pool, r.2)
  | n :: rest => (some n, { pool with head := rest }, s)

/-- Embedding of `pool_mem_return` (dyn_mem_pool.h:229): push the returned node back as
the new free-list head of its owning pool (located in C through the
`node->pool` back-reference; passed explicitly here). -/
def pool_mem_return (pool : MemPool) (node : MemNode) : MemPool :=
  { pool with head := node :: pool.head }

/-- Constant `DynPoolMinMultiPoolMemNodeSizeBits` (dyn_mem_pool.h:252). -/
def DynPoolMinMultiPoolMemNodeSizeBits : Nat := 9

/-- Constant `MULTIPOOL_ENTRY_COUNT` (dyn_mem_pool.h:261). -/
def MULTIPOOL_ENTRY_COUNT : Nat := 14

/-- Embedding of `struct MultiPool`: a table of (possibly NULL) pool pointers, plus the
address of the table's own allocation. -/
structure MultiPool where
  addr : Nat
  pools : List (Option MemPool)
deriving DecidableEq, Repr

/-- The construction loop of `multipool_create`: for `count` slots starting
at class index `start`, allocate a pool of size `1 << (9 + i)` per slot
(NULL slot on allocation failure) and continue. -/
def multipool_build (start count : Nat) (s : AllocState) :
    List (Option MemPool) × AllocState :=
  match count with
  | 0 => ([], s)
  | c + 1 =>
    let a := alloc_mem_pool (1 <<< (DynPoolMinMultiPoolMemNodeSizeBits + start)) s
    let rest := multipool_build (start + 1) c a.2
    (a.1 :: rest.1, rest.2)

/-- Embedding of `multipool_create` (dyn_mem_pool.h:279): `malloc` the table, then fill
all `MULTIPOOL_ENTRY_COUNT` slots; a failed slot allocation leaves a NULL
slot but does not abort construction. -/
def multipool_create (s : AllocState) : Option MultiPool × AllocState :=
  let m := malloc s
  match m.1 with
  | none => (none, m.2)
  | some mpAddr =>
    let b := multipool_build 0 MULTIPOOL_ENTRY_COUNT m.2
    (some { addr := mpAddr, pools := b.1 }, b.2)

/-- Helper for `multipool_free`: free every pool slot in order.  (The C
code calls `free_mem_pool` unconditionally; that function asserts a
non-NULL pool, so a NULL slot is outside the modelled contract and is
skipped here.) -/
def free_pool_slots : List (Option MemPool) → AllocState → AllocState
  | [], s => s
  | some p :: rest, s => free_pool_slots rest (free_mem_pool p s)
  | none :: rest, s => free_pool_slots rest s

/-- Embedding of `multipool_free` (dyn_mem_pool.h:298): free every pool, then the table
itself. -/
def multipool_free (mp : MultiPool) (s : AllocState) : AllocState :=
  free_addr (free_pool_slots mp.pools s) mp.addr

/-- Binary length with explicit fuel (structural recursion so the kernel
can evaluate it): `bitlen_aux fuel n` is the number of bits of `n`,
provided `n < 2 ^ fuel`. -/
def bitlen_aux : Nat → Nat → Nat
  | 0, _ => 0
  | fuel + 1, n => if n = 0 then 0 else bitlen_aux fuel (n / 2) + 1

/-- Binary length of a 32-bit value. -/
def bitlen (n : Nat) : Nat := bitlen_aux 32 n

/-- Model of `__builtin_clz` on a nonzero `uint32_t` value: the number of
leading zero bits. -/
def clz32 (v : Nat) : Nat := 32 - bitlen v

/-- Embedding of `find_multipool_index_for_size` (dyn_mem_pool.h:313): computes
`(size - 1) >> 9` in `uint32_t` arithmetic (wrapping for `size = 0`); if
the result is zero the index is 0, otherwise it is `32 - clz(size_value)`. -/
def find_multipool_index_for_size (size : Nat) : Nat :=
  let size_value :=
    ((size + (4294967296 - 1)) % 4294967296) >>> DynPoolMinMultiPoolMemNodeSizeBits
  if size_value = 0 then 0 else 32 - clz32 size_value

/-- Embedding of `multipool_mem_acquire` (dyn_mem_pool.h:329): resolve the size class;
out-of-range indexes are rejected with a NULL result before any pool is
consulted; otherwise delegate to the class's `pool_mem_acquire` (the C
code additionally asserts a non-NULL slot, which always holds when
construction fully succeeded; a NULL slot is modelled as a NULL result). -/
def multipool_mem_acquire (mp : MultiPool) (size : Nat) (s : AllocState) :
    Option MemNode × MultiPool × AllocState :=
  let index := find_multipool_index_for_size size
  if index < MULTIPOOL_ENTRY_COUNT then
    match mp.pools.getD index none with
    | none => (none, mp, s)
    | some pool =>
      let r := pool_mem_acquire pool s
      (r.1, { mp with pools := mp.pools.set index (some r.2.1) }, r.2.2)
  else (none, mp, s)

/-- The `_global_multipool` pointer (dyn_mem_pool.h:347): `some mp` models
a non-NULL pointer to `mp`, `none` models NULL. -/
structure GlobalState where
  gmp : Option MultiPool
deriving DecidableEq, Repr

/-- Embedding of `global_multipool_create` (dyn_mem_pool.h:353). -/
def global_multipool_create (s : AllocState) : GlobalState × AllocState :=
  let r := multipool_create s
  ({ gmp := r.1 }, r.2)

/-- The `assert(_global_multipool != NULL)` check at the top of
`global_multipool_mem_acquire` (dyn_mem_pool.h:364). -/
def global_acquire_assert_passes (g : GlobalState) : Bool :=
  g.gmp.isSome

/-- Embedding of `global_multipool_mem_acquire` (dyn_mem_pool.h:363): delegates to the
global multipool (a NULL global is an assertion failure in C, modelled as a
NULL result). -/
def global_multipool_mem_acquire (g : GlobalState) (size : Nat) (s : AllocState) :
    Option MemNode × GlobalState × AllocState :=
  match g.gmp with
  | none => (none, g, s)
  | some mp =>
    let r := multipool_mem_acquire mp size s
    (r.1, { gmp := some r.2.1 }, r.2.2)

/-- Embedding of `global_multipool_free` (dyn_mem_pool.h:372): frees the multipool the
global pointer refers to; the body never assigns `_global_multipool`, so
the pointer value itself is left untouched.  (A NULL global is an
assertion failure inside `multipool_free` in C; modelled as a no-op.) -/
def global_multipool_free (g : GlobalState) (s : AllocState) : GlobalState × AllocState :=
  match g.gmp with
  | none => (g, s)
  | some mp => (g, multipool_free mp s)

/-! ## Arithmetic facts about `bitlen` and the size-class function -/

/-- The function `bitlen_aux` never exceeds its fuel. -/
theorem bitlen_aux_le (fuel : Nat) : ∀ n : Nat, bitlen_aux fuel n ≤ fuel := by
  induction fuel with
  | zero => intro n; simp [bitlen_aux]
  | succ f ih =>
    intro n
    by_cases h : n = 0
    · simp [bitlen_aux, h]
    · simp only [bitlen_aux, h, if_false]
      exact Nat.succ_le_succ (ih (n / 2))

/-- Characterisation of `bitlen_aux`: for values within the fuel's range it
is the unique binary length, i.e. `bitlen_aux fuel n ≤ k ↔ n < 2 ^ k`. -/
theorem bitlen_aux_le_iff (fuel : Nat) :
    ∀ k n : Nat, n < 2 ^ fuel → (bitlen_aux fuel n ≤ k ↔ n < 2 ^ k) := by
  induction fuel with
  | zero =>
    intro k n hn
    have : n = 0 := by simpa using hn
    subst this
    simp [bitlen_aux, Nat.pos_pow_of_pos, Nat.two_pow_pos]
  | succ f ih =>
    intro k n hn
    by_cases h : n = 0
    · subst h
      simp [bitlen_aux, Nat.two_pow_pos]
    · simp only [bitlen_aux, h, if_false]
      cases k with
      | zero =>
        simp only [pow_zero]
        constructor
        · intro hk; omega
        · intro hk; omega
      | succ j =>
        have hdiv : n / 2 < 2 ^ f := by
          rw [Nat.div_lt_iff_lt_mul (by norm_num)]
          calc n < 2 ^ (f + 1) := hn
          _ = 2 ^ f * 2 := by rw [pow_succ]
        rw [Nat.succ_le_succ_iff, ih j (n / 2) hdiv,
          Nat.div_lt_iff_lt_mul (by norm_num : 0 < 2), ← pow_succ]

/-- Characterisation of `bitlen` for 32-bit values. -/
theorem bitlen_le_iff {k n : Nat} (h : n < 4294967296) : bitlen n ≤ k ↔ n < 2 ^ k :=
  bitlen_aux_le_iff 32 k n (by norm_num; omega)

/-- Every 32-bit value is below `2 ^ bitlen`. -/
theorem lt_pow_bitlen {n : Nat} (h : n < 4294967296) : n < 2 ^ bitlen n :=
  (bitlen_le_iff h).1 le_rfl

/-- Monotonicity of `bitlen` on 32-bit values. -/
theorem bitlen_mono {a b : Nat} (hb : b < 4294967296) (hab : a ≤ b) :
    bitlen a ≤ bitlen b :=
  (bitlen_le_iff (lt_of_le_of_lt hab hb)).2 (lt_of_le_of_lt hab (lt_pow_bitlen hb))

/-- For a 32-bit value, `bitlen v` equals the ceiling logarithm
`Nat.clog 2 (v + 1)`, i.e. the least `k` with `v < 2 ^ k`. -/
theorem bitlen_eq_clog {v : Nat} (h32 : v < 4294967296) :
    bitlen v = Nat.clog 2 (v + 1) := by
  apply le_antisymm
  · exact (bitlen_le_iff h32).2
      (lt_of_lt_of_le (Nat.lt_succ_self v) (Nat.le_pow_clog (by norm_num) (v + 1)))
  · exact (Nat.le_pow_iff_clog_le (by norm_num)).1
      (Nat.succ_le_of_lt (lt_pow_bitlen h32))

/-- The embedded size-class function, on valid `uint32_t` inputs, is the
binary length of `(size - 1) / 512`. -/
theorem find_index_eq_bitlen (S : Nat) (h1 : 1 ≤ S) (h2 : S < 4294967296) :
    find_multipool_index_for_size S = bitlen ((S - 1) / 512) := by
  have hmod : (S + (4294967296 - 1)) % 4294967296 = S - 1 := by omega
  have hshift : (S - 1) >>> 9 = (S - 1) / 512 := Nat.shiftRight_eq_div_pow (S - 1) 9
  unfold find_multipool_index_for_size DynPoolMinMultiPoolMemNodeSizeBits
  simp only [hmod, hshift]
  by_cases h : (S - 1) / 512 = 0
  · simp [h, bitlen, bitlen_aux]
  · have hle : bitlen ((S - 1) / 512) ≤ 32 := bitlen_aux_le 32 _
    simp only [h, if_false, clz32]
    omega

/-! ## Claim theorems: size-class arithmetic -/

/-- C1: for every requested size `1 ≤ S ≤ 4194304`,
`find_multipool_index_for_size S` is `0` when `S ≤ 512` and otherwise
`ceil(log2(S / 512))` (expressed as `Nat.clog 2` of the ceiling of
`S / 512`, which is the least `k` with `S ≤ 512 * 2 ^ k`); in particular
the boundary values at the minimum class size 512 are
`index 512 = 0`, `index 513 = 1`, `index 1024 = 1`, `index 1025 = 2`. -/
theorem find_index_matches_ceil_log2 :
    (∀ S : Nat, 1 ≤ S → S ≤ 4194304 →
      find_multipool_index_for_size S =
        if S ≤ 512 then 0 else Nat.clog 2 ((S + 511) / 512)) ∧
    find_multipool_index_for_size 512 = 0 ∧
    find_multipool_index_for_size 513 = 1 ∧
    find_multipool_index_for_size 1024 = 1 ∧
    find_multipool_index_for_size 1025 = 2 := by
  refine ⟨?_, by decide, by decide, by decide, by decide⟩
  intro S h1 h2
  rw [find_index_eq_bitlen S h1 (by omega)]
  by_cases hle : S ≤ 512
  · have hz : (S - 1) / 512 = 0 := by omega
    simp [hle, hz, bitlen, bitlen_aux]
  · have hv32 : (S - 1) / 512 < 4294967296 := by omega
    rw [if_neg hle, bitlen_eq_clog hv32]
    congr 1
    omega

/-- Witness for C1 at the concrete size 600. -/
theorem find_index_matches_ceil_log2_witness :
    find_multipool_index_for_size 600 =
      if 600 ≤ 512 then 0 else Nat.clog 2 ((600 + 511) / 512) :=
  find_index_matches_ceil_log2.1 600 (by decide) (by decide)

/-- C4: the size-class function is monotone: for `uint32_t` sizes
`0 < S1 < S2`, the index for `S1` is at most the index for `S2`. -/
theorem find_index_monotone (S1 S2 : Nat) (h1 : 0 < S1) (h12 : S1 < S2)
    (h2 : S2 < 4294967296) :
    find_multipool_index_for_size S1 ≤ find_multipool_index_for_size S2 := by
  rw [find_index_eq_bitlen S1 h1 (by omega), find_index_eq_bitlen S2 (by omega) h2]
  exact bitlen_mono (by omega) (Nat.div_le_div_right (by omega))

/-- Witness for C4 at the concrete sizes 700 < 5000. -/
theorem find_index_monotone_witness :
    find_multipool_index_for_size 700 ≤ find_multipool_index_for_size 5000 :=
  find_index_monotone 700 5000 (by decide) (by decide) (by decide)

/-- C2: for every multipool and every `uint32_t` size beyond the largest
class's block size (`S > 4194304`), `multipool_mem_acquire` returns NULL
and leaves the multipool and the allocator untouched: no pool is consulted
and no fallback allocation happens. -/
theorem multipool_acquire_oversize_null (mp : MultiPool) (s : AllocState) (S : Nat)
    (hS : 4194304 < S) (h32 : S < 4294967296) :
    multipool_mem_acquire mp S s = (none, mp, s) := by
  have hidx : 14 ≤ find_multipool_index_for_size S := by
    rw [find_index_eq_bitlen S (by omega) h32]
    by_contra hlt
    have h13 : bitlen ((S - 1) / 512) ≤ 13 := by omega
    have := (bitlen_le_iff (by omega)).1 h13
    have h8192 : (8192 : Nat) ≤ (S - 1) / 512 := by omega
    norm_num at this
    omega
  unfold multipool_mem_acquire MULTIPOOL_ENTRY_COUNT
  rw [if_neg (by omega)]

/-- Witness for C2 at the concrete size 4194305 on an empty-table
multipool. -/
theorem multipool_acquire_oversize_null_witness :
    multipool_mem_acquire ⟨0, []⟩ 4194305 ⟨[], 0, []⟩ =
      (none, ⟨0, []⟩, ⟨[], 0, []⟩) :=
  multipool_acquire_oversize_null ⟨0, []⟩ ⟨[], 0, []⟩ 4194305 (by decide) (by decide)

/-- C9: a requested size of zero wraps around in the `uint32_t`
computation `size - 1`, producing `4294967295` and hence size-class index
23; since `23 ≥ 14`, `multipool_mem_acquire` with size 0 returns NULL
(with assertions disabled) and leaves the multipool, all its pools and the
allocator unchanged, rather than allocating from class 0. -/
theorem zero_size_wraps_to_index_23 :
    find_multipool_index_for_size 0 = 23 ∧
    (0 + (4294967296 - 1)) % 4294967296 = 4294967295 ∧
    ∀ (mp : MultiPool) (s : AllocState),
      multipool_mem_acquire mp 0 s = (none, mp, s) := by
  have h0 : find_multipool_index_for_size 0 = 23 := by decide
  refine ⟨h0, by decide, ?_⟩
  intro mp s
  unfold multipool_mem_acquire MULTIPOOL_ENTRY_COUNT
  rw [h0, if_neg (by omega)]

/-! ## Claim theorems: single-pool recycling and failure atomicity -/

/-- C3: single-threaded recycling round-trip: returning a data pointer to
its pool and immediately acquiring again yields exactly the same pointer
(the identical underlying Block) and restores the pool to its pre-return
state, without touching the system allocator (no fresh allocation). -/
theorem pool_return_then_acquire_same (pool : MemPool) (p : MemNode) (s : AllocState) :
    pool_mem_acquire (pool_mem_return pool p) s = (some p, pool, s) := rfl

/-- C6: allocation-failure atomicity of the cache-miss path.  If the first
`malloc` (the `MemNode` control structure) fails, acquire returns NULL
with the pool untouched and nothing allocated; if the second `malloc` (the
data buffer) fails, acquire returns NULL with the pool untouched and the
partially allocated control structure freed again (its address is logged
as freed and the address counter shows no leaked allocation). -/
theorem pool_acquire_alloc_failure_atomic (pool : MemPool) (s : AllocState)
    (rest : List Bool) (hhead : pool.head = []) :
    (s.outcomes = false :: rest →
      pool_mem_acquire pool s =
        (none, pool, ⟨rest, s.nextAddr, s.freedAddrs⟩)) ∧
    (s.outcomes = true :: false :: rest →
      pool_mem_acquire pool s =
        (none, pool, ⟨rest, s.nextAddr + 1, s.nextAddr :: s.freedAddrs⟩)) := by
  obtain ⟨pa, ph, pm⟩ := pool
  obtain ⟨o, na, fa⟩ := s
  simp only [MemPool.head] at hhead
  subst hhead
  constructor
  · intro h
    simp only [AllocState.outcomes] at h
    subst h
    rfl
  · intro h
    simp only [AllocState.outcomes] at h
    subst h
    rfl

/-- Witness for C6: node-allocation failure on an empty pool of block size
512 returns NULL and leaves the pool intact. -/
theorem pool_acquire_alloc_failure_atomic_witness :
    pool_mem_acquire ⟨0, [], 512⟩ ⟨[false], 5, []⟩ =
      (none, ⟨0, [], 512⟩, ⟨[], 5, []⟩) :=
  (pool_acquire_alloc_failure_atomic ⟨0, [], 512⟩ ⟨[false], 5, []⟩ [] rfl).1 rfl

/-- C7: the cache-miss path does not touch pool state.  When the free list
is empty, `pool_mem_acquire` leaves the pool (in particular its head, still
NULL) completely unchanged, and when the allocator succeeds it returns the
freshly allocated Block directly — the fresh Block is never inserted into
the free list. -/
theorem pool_acquire_cache_miss_frame (pool : MemPool) (s : AllocState)
    (hhead : pool.head = []) :
    (pool_mem_acquire pool s).2.1 = pool ∧
    ((pool_mem_acquire pool s).2.1).head = [] ∧
    (s.outcomes = [] →
      pool_mem_acquire pool s =
        (some ⟨s.nextAddr, s.nextAddr + 1, pool.addr⟩, pool,
          ⟨[], s.nextAddr + 2, s.freedAddrs⟩)) := by
  obtain ⟨pa, ph, pm⟩ := pool
  simp only [MemPool.head] at hhead
  subst hhead
  refine ⟨rfl, rfl, ?_⟩
  intro h
  obtain ⟨o, na, fa⟩ := s
  simp only [AllocState.outcomes] at h
  subst h
  rfl

/-- Witness for C7: on an empty pool with a fully successful allocator the
fresh Block (node address 5, data address 6) is returned directly and the
pool still has a NULL head. -/
theorem pool_acquire_cache_miss_frame_witness :
    pool_mem_acquire ⟨3, [], 512⟩ ⟨[], 5, []⟩ =
      (some ⟨5, 6, 3⟩, ⟨3, [], 512⟩, ⟨[], 7, []⟩) :=
  (pool_acquire_cache_miss_frame ⟨3, [], 512⟩ ⟨[], 5, []⟩ rfl).2.2 rfl

/-! ## Multipool construction -/

/-- The pool table produced by a fully successful run of the construction
loop: slot `i` holds a fresh empty pool at address `a + i` with block size
`1 <<< (9 + start + i)`. -/
def expected_pools : Nat → Nat → Nat → List (Option MemPool)
  | _, _, 0 => []
  | a, start, c + 1 =>
    some ⟨a, [], 1 <<< (9 + start)⟩ :: expected_pools (a + 1) (start + 1) c

theorem expected_pools_length : ∀ (count a start : Nat),
    (expected_pools a start count).length = count := by
  intro count
  induction count with
  | zero => intro a start; rfl
  | succ c ih => intro a start; simp [expected_pools, ih]

theorem expected_pools_getD : ∀ (count a start i : Nat), i < count →
    (expected_pools a start count).getD i none =
      some ⟨a + i, [], 1 <<< (9 + (start + i))⟩ := by
  intro count
  induction count with
  | zero => intro a start i h; exact absurd h (Nat.not_lt_zero i)
  | succ c ih =>
    intro a start i h
    cases i with
    | zero => simp [expected_pools]
    | succ j =>
      simp only [expected_pools, List.getD_cons_succ]
      rw [ih (a + 1) (start + 1) j (by omega)]
      have h1 : a + 1 + j = a + (j + 1) := by omega
      have h2 : start + 1 + j = start + (j + 1) := by omega
      rw [h1, h2]

/-- The block size `1 << (9 + i)` is the same as `512 << i`. -/
theorem one_shl_nine_add (i : Nat) : (1 <<< (9 + i) : Nat) = 512 <<< i := by
  rw [Nat.shiftLeft_eq, Nat.shiftLeft_eq, pow_add]
  norm_num

/-- A fully successful construction loop produces exactly the expected
table and advances the address counter once per slot. -/
theorem multipool_build_all_ok : ∀ (count start : Nat) (s : AllocState),
    s.outcomes = [] →
    multipool_build start count s =
      (expected_pools s.nextAddr start count,
        ⟨[], s.nextAddr + count, s.freedAddrs⟩) := by
  intro count
  induction count with
  | zero =>
    intro start s h
    obtain ⟨o, na, fa⟩ := s
    simp only [AllocState.outcomes] at h
    subst h
    rfl
  | succ c ih =>
    intro start s h
    obtain ⟨o, na, fa⟩ := s
    simp only [AllocState.outcomes] at h
    subst h
    simp only [multipool_build, alloc_mem_pool, malloc]
    rw [ih (start + 1) ⟨[], na + 1, fa⟩ rfl]
    simp only [expected_pools, DynPoolMinMultiPoolMemNodeSizeBits,
      AllocState.nextAddr, AllocState.freedAddrs]
    have h1 : na + 1 + c = na + (c + 1) := by omega
    rw [h1]

/-- C5: with a fully successful allocator, `multipool_create` constructs
exactly 14 pools where pool `i` is empty with block size `512 << i`; those
sizes are strictly increasing from 512 up to 4 MiB, and neither
`pool_mem_acquire` nor `pool_mem_return` ever changes a pool's
`mem_size`. -/
theorem multipool_create_builds_ladder (s : AllocState) (h : s.outcomes = []) :
    ∃ mp : MultiPool, (multipool_create s).1 = some mp ∧
      mp.pools.length = 14 ∧
      (∀ i, i < 14 →
        mp.pools.getD i none = some ⟨s.nextAddr + 1 + i, [], 512 <<< i⟩) ∧
      (∀ i j, i < j → j < 14 → (512 <<< i : Nat) < 512 <<< j) ∧
      (∀ (pool : MemPool) (s2 : AllocState),
        ((pool_mem_acquire pool s2).2.1).mem_size = pool.mem_size) ∧
      (∀ (pool : MemPool) (p : MemNode),
        (pool_mem_return pool p).mem_size = pool.mem_size) := by
  obtain ⟨o, na, fa⟩ := s
  simp only [AllocState.outcomes] at h
  subst h
  refine ⟨⟨na, expected_pools (na + 1) 0 14⟩, ?_, ?_, ?_, ?_, ?_, ?_⟩
  · simp only [multipool_create, malloc, MULTIPOOL_ENTRY_COUNT]
    rw [multipool_build_all_ok 14 0 ⟨[], na + 1, fa⟩ rfl]
  · exact expected_pools_length 14 (na + 1) 0
  · intro i hi
    have := expected_pools_getD 14 (na + 1) 0 i hi
    simp only [MultiPool.pools]
    rw [this, Nat.zero_add, one_shl_nine_add]
  · intro i j hij hj
    rw [Nat.shiftLeft_eq, Nat.shiftLeft_eq]
    exact mul_lt_mul_of_pos_left (Nat.pow_lt_pow_right (by norm_num) hij) (by norm_num)
  · intro pool s2
    obtain ⟨pa, ph, pm⟩ := pool
    cases ph <;> rfl
  · intro pool p
    rfl

/-- Witness for C5: construction from the all-success allocator state with
address counter 0. -/
theorem multipool_create_builds_ladder_witness :
    ∃ mp : MultiPool, (multipool_create ⟨[], 0, []⟩).1 = some mp ∧
      mp.pools.length = 14 ∧
      (∀ i, i < 14 →
        mp.pools.getD i none = some ⟨0 + 1 + i, [], 512 <<< i⟩) ∧
      (∀ i j, i < j → j < 14 → (512 <<< i : Nat) < 512 <<< j) ∧
      (∀ (pool : MemPool) (s2 : AllocState),
        ((pool_mem_acquire pool s2).2.1).mem_size = pool.mem_size) ∧
      (∀ (pool : MemPool) (p : MemNode),
        (pool_mem_return pool p).mem_size = pool.mem_size) :=
  multipool_create_builds_ladder ⟨[], 0, []⟩ rfl

/-- Evaluation of `malloc` on a forced failure. -/
theorem malloc_fail (rest : List Bool) (na : Nat) (fa : List Nat) :
    malloc ⟨false :: rest, na, fa⟩ = (none, ⟨rest, na, fa⟩) := rfl

/-- Evaluation of `malloc` on a forced success. -/
theorem malloc_ok (rest : List Bool) (na : Nat) (fa : List Nat) :
    malloc ⟨true :: rest, na, fa⟩ = (some na, ⟨rest, na + 1, fa⟩) := rfl

/-- Evaluation of `malloc` when no outcomes are forced (success). -/
theorem malloc_empty (na : Nat) (fa : List Nat) :
    malloc ⟨[], na, fa⟩ = (some na, ⟨[], na + 1, fa⟩) := rfl

/-- Evaluation of `alloc_mem_pool` on a forced failure. -/
theorem alloc_mem_pool_fail (size : Nat) (rest : List Bool) (na : Nat) (fa : List Nat) :
    alloc_mem_pool size ⟨false :: rest, na, fa⟩ = (none, ⟨rest, na, fa⟩) := rfl

/-- Evaluation of `alloc_mem_pool` on a forced success. -/
theorem alloc_mem_pool_ok (size : Nat) (rest : List Bool) (na : Nat) (fa : List Nat) :
    alloc_mem_pool size ⟨true :: rest, na, fa⟩ =
      (some ⟨na, [], size⟩, ⟨rest, na + 1, fa⟩) := rfl

/-- One unfolding of the construction loop. -/
theorem multipool_build_succ (start c : Nat) (s : AllocState) :
    multipool_build start (c + 1) s =
      ((alloc_mem_pool (1 <<< (9 + start)) s).1 ::
        (multipool_build (start + 1) c (alloc_mem_pool (1 <<< (9 + start)) s).2).1,
       (multipool_build (start + 1) c (alloc_mem_pool (1 <<< (9 + start)) s).2).2) := rfl

/-- A construction loop whose `k`-th slot allocation fails (all others
succeed) produces the expected table with a single NULL hole at position
`k`; the failed `malloc` consumes no address, so `count - 1` addresses are
used in total. -/
theorem multipool_build_one_fail : ∀ (count k start : Nat) (s : AllocState),
    k < count → s.outcomes = List.replicate k true ++ [false] →
    multipool_build start count s =
      (expected_pools s.nextAddr start k ++
        none :: expected_pools (s.nextAddr + k) (start + k + 1) (count - k - 1),
       ⟨[], s.nextAddr + count - 1, s.freedAddrs⟩) := by
  intro count
  induction count with
  | zero => intro k start s hk h; exact absurd hk (Nat.not_lt_zero k)
  | succ c ih =>
    intro k start s hk h
    obtain ⟨o, na, fa⟩ := s
    simp only [AllocState.outcomes] at h
    subst h
    cases k with
    | zero =>
      rw [show List.replicate 0 true ++ [false] = [false] from rfl]
      rw [multipool_build_succ, alloc_mem_pool_fail]
      rw [multipool_build_all_ok c (start + 1) ⟨[], na, fa⟩ rfl]
      simp only [expected_pools, List.nil_append, AllocState.nextAddr,
        AllocState.freedAddrs]
      have h1 : na + (c + 1) - 1 = na + c := by omega
      have h2 : c + 1 - 0 - 1 = c := by omega
      have h3 : start + 0 + 1 = start + 1 := by omega
      rw [h1, h2, h3]
      simp
    | succ j =>
      rw [show List.replicate (j + 1) true ++ [false] =
        true :: (List.replicate j true ++ [false]) from rfl]
      rw [multipool_build_succ, alloc_mem_pool_ok]
      rw [ih j (start + 1) ⟨List.replicate j true ++ [false], na + 1, fa⟩
        (by omega) rfl]
      simp only [expected_pools, AllocState.nextAddr, AllocState.freedAddrs]
      have h1 : na + 1 + j = na + (j + 1) := by omega
      have h2 : start + 1 + j + 1 = start + (j + 1) + 1 := by omega
      have h3 : c - j - 1 = c + 1 - (j + 1) - 1 := by omega
      have h4 : na + 1 + c - 1 = na + (c + 1) - 1 := by omega
      rw [h1, h2, h3, h4, List.cons_append]

/-- Evaluation of `multipool_create` when the table `malloc` succeeds. -/
theorem multipool_create_ok (X : List Bool) (na : Nat) (fa : List Nat) :
    multipool_create ⟨true :: X, na, fa⟩ =
      (some ⟨na, (multipool_build 0 14 ⟨X, na + 1, fa⟩).1⟩,
       (multipool_build 0 14 ⟨X, na + 1, fa⟩).2) := rfl

/-- C8: non-atomic multipool construction.  If the pool allocation for
class `k` fails while the table allocation and every other class
allocation succeed, `multipool_create` still returns a non-NULL multipool
whose slot `k` is NULL while every other slot holds a freshly constructed
empty pool of the correct block size `512 << i`; construction does not
fail as a whole. -/
theorem multipool_create_partial_on_failure (k : Nat) (s : AllocState)
    (hk : k < 14) (h : s.outcomes = true :: (List.replicate k true ++ [false])) :
    ∃ mp : MultiPool, (multipool_create s).1 = some mp ∧
      mp.pools.length = 14 ∧
      mp.pools.getD k none = none ∧
      (∀ i, i < 14 → i ≠ k →
        ∃ p : MemPool, mp.pools.getD i none = some p ∧
          p.mem_size = 512 <<< i ∧ p.head = []) := by
  obtain ⟨o, na, fa⟩ := s
  simp only [AllocState.outcomes] at h
  subst h
  have hb := multipool_build_one_fail 14 k 0
    ⟨List.replicate k true ++ [false], na + 1, fa⟩ hk rfl
  simp only [AllocState.nextAddr, AllocState.freedAddrs] at hb
  have hlen : (expected_pools (na + 1) 0 k).length = k :=
    expected_pools_length k (na + 1) 0
  refine ⟨⟨na, expected_pools (na + 1) 0 k ++
      none :: expected_pools (na + 1 + k) (0 + k + 1) (14 - k - 1)⟩, ?_, ?_, ?_, ?_⟩
  · rw [multipool_create_ok, hb]
  · simp only [MultiPool.pools, List.length_append, List.length_cons,
      expected_pools_length]
    omega
  · simp only [MultiPool.pools]
    rw [List.getD_append_right _ _ _ _ (by omega), hlen, Nat.sub_self]
    rfl
  · intro i hi hik
    simp only [MultiPool.pools]
    rcases Nat.lt_or_ge i k with hlt | hge
    · rw [List.getD_append _ _ _ _ (by omega),
        expected_pools_getD k (na + 1) 0 i hlt]
      refine ⟨⟨na + 1 + i, [], 1 <<< (9 + (0 + i))⟩, rfl, ?_, rfl⟩
      rw [Nat.zero_add, one_shl_nine_add]
    · have hgt : k < i := by omega
      rw [List.getD_append_right _ _ _ _ (by omega), hlen]
      have hidx : i - k = (i - k - 1) + 1 := by omega
      rw [hidx, List.getD_cons_succ,
        expected_pools_getD (14 - k - 1) (na + 1 + k) (0 + k + 1) (i - k - 1)
          (by omega)]
      refine ⟨⟨na + 1 + k + (i - k - 1), [], 1 <<< (9 + (0 + k + 1 + (i - k - 1)))⟩,
        rfl, ?_, rfl⟩
      have heq : 0 + k + 1 + (i - k - 1) = i := by omega
      rw [heq, one_shl_nine_add]

/-- Witness for C8: class 2 fails during construction from address counter
0; the returned multipool has a NULL slot 2 and correct sizes elsewhere. -/
theorem multipool_create_partial_on_failure_witness :
    ∃ mp : MultiPool,
      (multipool_create ⟨true :: (List.replicate 2 true ++ [false]), 0, []⟩).1 =
        some mp ∧
      mp.pools.length = 14 ∧
      mp.pools.getD 2 none = none ∧
      (∀ i, i < 14 → i ≠ 2 →
        ∃ p : MemPool, mp.pools.getD i none = some p ∧
          p.mem_size = 512 <<< i ∧ p.head = []) :=
  multipool_create_partial_on_failure 2
    ⟨true :: (List.replicate 2 true ++ [false]), 0, []⟩ (by decide) rfl

/-! ## Global multipool lifecycle -/

/-- C10: global teardown leaves a stale singleton pointer.
`global_multipool_free` frees the MultiPool the global pointer refers to
(its table address is logged as freed), but the pointer itself still holds
its previous non-NULL value afterwards, so the non-NULL assertion at the
top of `global_multipool_mem_acquire` still passes and cannot detect
use-after-teardown. -/
theorem global_free_leaves_stale_pointer (g : GlobalState) (mp : MultiPool)
    (s : AllocState) (h : g.gmp = some mp) :
    (global_multipool_free g s).1.gmp = some mp ∧
    mp.addr ∈ ((global_multipool_free g s).2).freedAddrs ∧
    global_acquire_assert_passes (global_multipool_free g s).1 = true := by
  obtain ⟨gm⟩ := g
  simp only [GlobalState.gmp] at h
  subst h
  refine ⟨rfl, ?_, rfl⟩
  simp only [global_multipool_free, multipool_free, free_addr]
  exact List.mem_cons_self _ _

/-- Witness for C10 on a concrete global context whose multipool table
lives at address 7. -/
theorem global_free_leaves_stale_pointer_witness :
    (global_multipool_free ⟨some ⟨7, []⟩⟩ ⟨[], 0, []⟩).1.gmp = some ⟨7, []⟩ ∧
    (7 : Nat) ∈ ((global_multipool_free ⟨some ⟨7, []⟩⟩ ⟨[], 0, []⟩).2).freedAddrs ∧
    global_acquire_assert_passes (global_multipool_free ⟨some ⟨7, []⟩⟩ ⟨[], 0, []⟩).1 =
      true :=
  global_free_leaves_stale_pointer ⟨some ⟨7, []⟩⟩ ⟨7, []⟩ ⟨[], 0, []⟩ rfl
